import Mathlib

/-!
Verification of the SENSORSTATE dashboard (`st.py`).

The embedding models the pandas/streamlit program in pure Lean:

* a pandas `DataFrame` is a header (column names) plus row-major cells;
* a cell (`Value`) is a datetime, a string that parses as a datetime, an
  unparseable string, a number, or a missing value (NaN/NaT);
* datetimes are minutes since 2024-01-01T00:00 (2024-01-01 is a Monday, so
  week buckets — pandas weekly bins ending Sunday — are 7-day blocks from
  the epoch);
* floats are modelled as rationals;
* `filter_data` follows `st.py` lines 135-152: coerce the filter column
  with `pd.to_datetime(..., errors='coerce')`, drop rows whose coercion
  fails, keep rows inside the inclusive bounds, and optionally
  `set_index(col).resample(freq).mean().reset_index()`.  pandas resample
  emits one row for *every* bucket between the first and last non-empty
  bucket (empty buckets get NaN means), ordered by bucket, keeps only
  numeric columns, and labels minute/hour/day buckets with the bucket
  start, week buckets with the ending Sunday, and month/year buckets with
  the last day of the period.  A raised exception is caught and turned
  into an empty `pd.DataFrame()`.
-/

/-- A cell of a pandas column: a datetime, a string parseable as the
datetime `t` (so `pd.to_datetime` coerces it to `t`), an unparseable
string, a float, or a missing value (NaN/NaT). -/
inductive Value where
  | dt (t : Nat)
  | dtStr (t : Nat)
  | txt (s : String)
  | num (q : Rat)
  | null
deriving DecidableEq

/-- A pandas DataFrame: ordered column names plus row-major cells. -/
structure DataFrame where
  header : List String
  rows : List (List Value)
deriving DecidableEq

/-- Cell of a row at column index `j` (pandas rows are aligned with the
header; a missing position reads as NaN). -/
def cellAt (row : List Value) (j : Nat) : Value := row.getD j Value.null

/-- `pd.to_datetime(v, errors='coerce')` on one cell: datetimes and
datetime-parseable strings coerce, everything else becomes NaT. -/
def coerceCell : Value → Option Nat
  | .dt t => some t
  | .dtStr t => some t
  | _ => none

/-- `df.columns.get_loc`-style lookup: index of the first column named
`c`, or `none` (a missing column raises `KeyError` in the source). -/
def colIndex : List String → String → Option Nat
  | [], _ => none
  | h :: t, c => if h = c then some 0 else (colIndex t c).map (· + 1)

/-! ### Civil calendar (for month/year resample buckets)

Day 0 is 2024-01-01.  pandas buckets months and years by the civil
calendar, so the embedding carries real month lengths and leap years. -/

def isLeap (y : Nat) : Bool := (y % 4 == 0 && y % 100 != 0) || y % 400 == 0

def daysInYear (y : Nat) : Nat := if isLeap y then 366 else 365

def daysInMonth (y m : Nat) : Nat :=
  if m == 2 then (if isLeap y then 29 else 28)
  else if m == 4 || m == 6 || m == 9 || m == 11 then 30
  else 31

/-- Total days in the `k` consecutive years starting at year `2024 + k0`. -/
def yearSeg (k0 : Nat) : Nat → Nat
  | 0 => 0
  | k + 1 => daysInYear (2024 + k0) + yearSeg (k0 + 1) k

/-- Day index of Jan 1 of year `2024 + k`. -/
def yearStartDay (k : Nat) : Nat := yearSeg 0 k

/-- Total days in the `j` consecutive months of year `y` starting at
month `m0` (1-based). -/
def monthSeg (y m0 : Nat) : Nat → Nat
  | 0 => 0
  | j + 1 => daysInMonth y m0 + monthSeg y (m0 + 1) j

/-- Days before month `m` (1-based) within year `y`. -/
def monthStartDay (y m : Nat) : Nat := monthSeg y 1 (m - 1)

/-- Structural worker for `dayToYear`: each step consumes at least 365
days, so fuel `d + 1` always suffices. -/
def dayToYearAux : Nat → Nat → Nat → Nat × Nat
  | 0, k0, d => (k0, d)
  | fuel + 1, k0, d =>
    if d < daysInYear (2024 + k0) then (k0, d)
    else dayToYearAux fuel (k0 + 1) (d - daysInYear (2024 + k0))

/-- Convert a day index (counted from year `2024 + k0`) to the pair
(year offset from 2024, day within that year). -/
def dayToYear (k0 d : Nat) : Nat × Nat := dayToYearAux (d + 1) k0 d

/-- Structural worker for `dayToMonth`: the scan visits at most months
`m0..12`. -/
def dayToMonthAux (y : Nat) : Nat → Nat → Nat → Nat × Nat
  | 0, m0, d => (m0, d)
  | fuel + 1, m0, d =>
    if d < daysInMonth y m0 then (m0, d)
    else dayToMonthAux y fuel (m0 + 1) (d - daysInMonth y m0)

/-- Convert a day index within a year (starting the scan at month `m0`,
stopping at month 12) to the pair (month, day within that month). -/
def dayToMonth (y m0 d : Nat) : Nat × Nat := dayToMonthAux y (12 - m0) m0 d

/-- Year offset (from 2024) containing minute `t`. -/
def yearIdxOf (t : Nat) : Nat := (dayToYear 0 (t / 1440)).1

/-- Month counter (`12 * yearOffset + month - 1`) containing minute `t`. -/
def monthIdxOf (t : Nat) : Nat :=
  let p := dayToYear 0 (t / 1440)
  let q := dayToMonth (2024 + p.1) 1 p.2
  p.1 * 12 + (q.1 - 1)

/-- Resample bucket sizes: the `freq_dict` strings 'T','H','D','W','M','Y'
of `st.py` line 497. -/
inductive Freq where
  | minute
  | hour
  | day
  | week
  | month
  | year
deriving DecidableEq

/-- Bucket index of minute `t` for each pandas offset alias: fixed-width
division for T/H/D/W (the epoch is a Monday, and pandas 'W' groups
Monday..Sunday together), civil calendar for M/Y. -/
def Freq.key : Freq → Nat → Nat
  | .minute, t => t
  | .hour, t => t / 60
  | .day, t => t / 1440
  | .week, t => t / 10080
  | .month, t => monthIdxOf t
  | .year, t => yearIdxOf t

/-- The timestamp pandas puts on bucket `b` after `reset_index`:
bucket start for T/H/D, the ending Sunday for 'W', the last day of the
month for 'M', Dec 31 for 'Y'. -/
def Freq.label : Freq → Nat → Nat
  | .minute, b => b
  | .hour, b => b * 60
  | .day, b => b * 1440
  | .week, b => (b * 7 + 6) * 1440
  | .month, b =>
      (yearStartDay (b / 12) + monthStartDay (2024 + b / 12) (b % 12 + 1)
        + (daysInMonth (2024 + b / 12) (b % 12 + 1) - 1)) * 1440
  | .year, b => (yearStartDay b + (daysInYear (2024 + b) - 1)) * 1440

/-! ### The filter / resample pipeline (`filter_data`, st.py 135-152) -/

/-- Step (a): `df[col] = pd.to_datetime(df[col], errors='coerce')`
followed by `df.dropna(subset=[col])`, keeping each surviving row
paired with its coerced timestamp. -/
def coercedPairs (rows : List (List Value)) (j : Nat) : List (Nat × List Value) :=
  rows.filterMap (fun row => (coerceCell (cellAt row j)).map (fun t => (t, row)))

/-- Step (b): the inclusive mask `(col >= lo) & (col <= hi)`. -/
def maskedPairs (rows : List (List Value)) (j lo hi : Nat) : List (Nat × List Value) :=
  (coercedPairs rows j).filter (fun p => decide (lo ≤ p.1) && decide (p.1 ≤ hi))

/-- Is the cell of a numeric dtype (float/NaN)?  pandas `.mean()` keeps a
column only when its dtype is numeric. -/
def numericCell : Value → Bool
  | .num _ => true
  | .null => true
  | _ => false

/-- A column has numeric dtype iff every cell of the original frame is a
number or NaN. -/
def isNumericCol (rows : List (List Value)) (c : Nat) : Bool :=
  rows.all (fun row => numericCell (cellAt row c))

/-- Indices of the numeric columns other than the filter column `j`:
exactly the columns `resample(...).mean()` keeps. -/
def numericIdx (df : DataFrame) (j : Nat) : List Nat :=
  (List.range df.header.length).filter (fun c => c != j && isNumericCol df.rows c)

/-- `v` as a float for the mean (NaN and non-numeric cells are skipped,
matching `mean(skipna=True)` on a numeric column). -/
def asNum : Value → Option Rat
  | .num q => some q
  | _ => none

/-- Exact rational addition, written with an explicit normalization so
that concrete means evaluate by kernel reduction (`Rat.add` itself is
irreducible); `ratAdd_eq` proves it agrees with `+`. -/
def ratAdd (a b : Rat) : Rat := mkRat (a.num * b.den + b.num * a.den) (a.den * b.den)

/-- Exact division of a rational by a natural number, again in a
kernel-reducible form; `ratDivNat_eq` proves it agrees with `/`. -/
def ratDivNat (a : Rat) (n : Nat) : Rat := mkRat a.num (a.den * n)

/-- Sum of a list of rationals via `ratAdd`. -/
def sumR : List Rat → Rat
  | [] => 0
  | q :: qs => ratAdd q (sumR qs)

/-- The arithmetic mean of a list of rationals. -/
def ratMean (xs : List Rat) : Rat := ratDivNat (sumR xs) xs.length

/-- Column-wise arithmetic mean of a bucket: for each of the `n` kept
columns, the mean of the non-NaN entries, or NaN when there are none
(in particular for an empty bucket). -/
def meansOf (n : Nat) (bucket : List (Nat × List Value)) : List Value :=
  (List.range n).map (fun c =>
    if (bucket.filterMap (fun p => asNum (cellAt p.2 c))).isEmpty then Value.null
    else Value.num (ratMean (bucket.filterMap (fun p => asNum (cellAt p.2 c)))))

/-- Rows after masking, re-keyed by bucket index and projected to the
kept numeric columns. -/
def keyedPts (f : Freq) (nIdx : List Nat) (masked : List (Nat × List Value)) :
    List (Nat × List Value) :=
  masked.map (fun p => (Freq.key f p.1, nIdx.map (fun c => cellAt p.2 c)))

/-- Smallest bucket index present (`0` for an empty frame, unused). -/
def kminOf : List (Nat × List Value) → Nat
  | [] => 0
  | q :: qs => qs.foldl (fun acc p => Nat.min acc p.1) q.1

/-- Largest bucket index present. -/
def kmaxOf : List (Nat × List Value) → Nat
  | [] => 0
  | q :: qs => qs.foldl (fun acc p => Nat.max acc p.1) q.1

/-- `df.set_index(col).resample(freq).mean().reset_index()`: one output
row per bucket from the first to the last non-empty bucket, ordered by
bucket, each carrying the bucket label and the per-column means. -/
def resampleRows (f : Freq) (n : Nat) (pts : List (Nat × List Value)) :
    List (List Value) :=
  if pts.isEmpty then []
  else
    (List.range (kmaxOf pts + 1 - kminOf pts)).map (fun i =>
      Value.dt (Freq.label f (kminOf pts + i))
        :: meansOf n (pts.filter (fun p => p.1 == kminOf pts + i)))

/-- The keyed points fed to the resampler for frame `df`. -/
def ptsOf (df : DataFrame) (j lo hi : Nat) (f : Freq) : List (Nat × List Value) :=
  keyedPts f (numericIdx df j) (maskedPairs df.rows j lo hi)

/-- `filter_data` (st.py 135-152).  A missing filter column raises
`KeyError`, which the `except` clause turns into `pd.DataFrame()`
(empty header, no rows).  Otherwise: coerce, drop failed coercions, mask
by the inclusive bounds, and — when a frequency is given — resample with
per-bucket means (`reset_index` puts the filter column first and
`mean()` keeps only the numeric columns). -/
def filter_data (df : DataFrame) (tsCol : String) (lo hi : Nat)
    (freq : Option Freq) : DataFrame :=
  match colIndex df.header tsCol with
  | none => ⟨[], []⟩
  | some j =>
    match freq with
    | none =>
        ⟨df.header, (maskedPairs df.rows j lo hi).map (fun p => p.2.set j (Value.dt p.1))⟩
    | some f =>
        ⟨tsCol :: (numericIdx df j).map (fun c => df.header.getD c ""),
         resampleRows f (numericIdx df j).length (ptsOf df j lo hi f)⟩

/-! ### Session state (st.py 22-42), snapshot save/load (45-71) -/

/-- One plot configuration: the tuple
`(timestamp_col, value_cols, plot_name, min_datetime, max_datetime, plot_type, freq)`
appended at st.py line 423. -/
structure PlotSpec where
  tsCol : String
  valueCols : List String
  name : String
  minDt : Nat
  maxDt : Nat
  chartKind : String
  freqStr : String
deriving DecidableEq

/-- The streamlit session state fields used by the app (st.py 22-39,
plus `last_upload` set at line 165).  `time.time()` floats are
rationals. -/
structure AppState where
  file_path : Option String
  df : Option DataFrame
  all_columns : Option (List String)
  auto_refresh : Bool
  file_last_modified : Option Rat
  plots : List PlotSpec
  refresh_interval : Rat
  last_saved_time : Rat
  authenticated : Bool
  last_upload : Option Rat
deriving DecidableEq

/-- A value stored in the pickled snapshot dict. -/
inductive SVal where
  | vPath (p : Option String)
  | vDf (d : Option DataFrame)
  | vCols (c : Option (List String))
  | vBool (b : Bool)
  | vTime (t : Option Rat)
  | vPlots (ps : List PlotSpec)
  | vFloat (x : Rat)
deriving DecidableEq

/-- `save_session_state` (st.py 45-57): the dict pickled to
`session_state.pkl`. -/
def save_session_state (s : AppState) : List (String × SVal) :=
  [("file_path", .vPath s.file_path),
   ("df", .vDf s.df),
   ("all_columns", .vCols s.all_columns),
   ("auto_refresh", .vBool s.auto_refresh),
   ("file_last_modified", .vTime s.file_last_modified),
   ("plots", .vPlots s.plots),
   ("refresh_interval", .vFloat s.refresh_interval),
   ("authenticated", .vBool s.authenticated)]

/-- Python `dict.get(key)`: the stored value, or `None` when absent. -/
def snapGet (k : String) (d : List (String × SVal)) : Option SVal :=
  (d.find? (fun p => p.1 == k)).map (·.2)

def getPath : Option SVal → Option String
  | some (.vPath p) => p
  | _ => none

def getDf : Option SVal → Option DataFrame
  | some (.vDf d) => d
  | _ => none

def getCols : Option SVal → Option (List String)
  | some (.vCols c) => c
  | _ => none

def getBool : Option SVal → Bool
  | some (.vBool b) => b
  | _ => false

def getTime : Option SVal → Option Rat
  | some (.vTime t) => t
  | _ => none

def getPlots : Option SVal → List PlotSpec
  | some (.vPlots ps) => ps
  | _ => []

def getFloat : Option SVal → Rat
  | some (.vFloat x) => x
  | _ => 10

/-- `load_session_state` (st.py 60-71): each field is assigned from
`dict.get(key)`.  A `None` from a missing key is modelled by the
session-state initializer defaults of st.py 22-39, since the typed
fields cannot hold `None`. -/
def load_session_state (s : AppState) (d : List (String × SVal)) : AppState :=
  { s with
    file_path := getPath (snapGet "file_path" d),
    df := getDf (snapGet "df" d),
    all_columns := getCols (snapGet "all_columns" d),
    auto_refresh := getBool (snapGet "auto_refresh" d),
    file_last_modified := getTime (snapGet "file_last_modified" d),
    plots := getPlots (snapGet "plots" d),
    refresh_interval := getFloat (snapGet "refresh_interval" d),
    authenticated := getBool (snapGet "authenticated" d) }

/-! ### Tabular loader (`load_data`, st.py 78-132) -/

/-- Python `s.startswith(p)` / `s.endswith(p)` / `p in s`, written over
the character lists so they evaluate by kernel reduction. -/
def pyStarts (s p : String) : Bool := p.data.isPrefixOf s.data

def pyEnds (s p : String) : Bool := p.data.isSuffixOf s.data

def pySubAux (pat : List Char) : List Char → Bool
  | [] => pat.isEmpty
  | c :: rest => pat.isPrefixOf (c :: rest) || pySubAux pat rest

def pyContains (s p : String) : Bool := pySubAux p.data s.data

/-- The external world `load_data` consults: HTTP responses and the
pandas CSV/Excel parsers.  (The SharePoint branch, st.py 82-102, differs
from the plain branch 103-116 only in how the bytes are fetched; the
format decision and parse are identical, so one set of functions models
both.) -/
structure Env where
  status : String → Nat
  contentType : String → String
  readCsvUrl : String → DataFrame
  readExcelUrl : String → DataFrame
  readCsvFile : String → DataFrame
  readExcelFile : String → DataFrame

/-- `load_data` (st.py 78-132): URL sources are fetched and dispatched
on content type (`'csv' in ct`, then `'excel' in ct or
path.endswith('.xlsx'/'.xls')`); local paths are dispatched on
extension.  A non-success HTTP status or an unrecognized format returns
`(None, None)` after `st.error`.  On success the frame and
`df.columns.tolist()` are returned. -/
def load_data (env : Env) (file_path : String) : Option (DataFrame × List String) :=
  if pyStarts file_path "http://" || pyStarts file_path "https://" then
    if env.status file_path != 200 then none
    else
      let ct := env.contentType file_path
      if pyContains ct "csv" then
        some (env.readCsvUrl file_path, (env.readCsvUrl file_path).header)
      else if pyContains ct "excel" || pyEnds file_path ".xlsx" || pyEnds file_path ".xls" then
        some (env.readExcelUrl file_path, (env.readExcelUrl file_path).header)
      else none
  else if pyEnds file_path ".csv" then
    some (env.readCsvFile file_path, (env.readCsvFile file_path).header)
  else if pyEnds file_path ".xlsx" || pyEnds file_path ".xls" then
    some (env.readExcelFile file_path, (env.readExcelFile file_path).header)
  else none

/-- In-memory session state together with the persisted
`session_state.pkl` contents. -/
structure World where
  state : AppState
  snapshot : List (String × SVal)

/-- A call to `save_session_state`: the snapshot file is overwritten
with the current state. -/
def doSave (w : World) : World := { w with snapshot := save_session_state w.state }

/-- `load_data_into_session` (st.py 155-170): on success the frame,
column list, `last_upload` and `file_last_modified` are stored and the
snapshot is written; on failure nothing changes. -/
def load_data_into_session (env : Env) (w : World) (file_path : String)
    (now : Rat) : World :=
  if file_path ≠ "" then
    match load_data env file_path with
    | some (df, cols) =>
        doSave { w with state :=
          { w.state with
            df := some df
            all_columns := some cols
            last_upload := some now
            file_last_modified := some now } }
    | none => w
  else w

/-! ### UI mutations (`main`, st.py 370-600) as an event step function -/

/-- Insertion sort by coerced timestamp, modelling
`df.sort_values(by=timestamp_col)`. -/
def insertByT (p : Nat × List Value) : List (Nat × List Value) → List (Nat × List Value)
  | [] => [p]
  | q :: qs => if p.1 ≤ q.1 then p :: q :: qs else q :: insertByT p qs

def sortByT : List (Nat × List Value) → List (Nat × List Value)
  | [] => []
  | p :: ps => insertByT p (sortByT ps)

/-- The "Add Data" handler's frame update (st.py 553-559): append a row
holding the new datetime and value (`pd.concat` aligns it on the column
names, filling the rest with NaN), re-coerce the timestamp column, drop
failed coercions, and sort by timestamp. -/
def addDataRow (df : DataFrame) (tsCol valCol : String) (ts : Nat) (v : Rat) :
    DataFrame :=
  let newRow := df.header.map (fun h =>
    if h = tsCol then Value.dt ts else if h = valCol then Value.num v else Value.null)
  let rows := df.rows ++ [newRow]
  match colIndex df.header tsCol with
  | none => ⟨df.header, rows⟩
  | some j =>
      ⟨df.header,
       (sortByT (coercedPairs rows j)).map (fun p => p.2.set j (Value.dt p.1))⟩

/-- The state-changing user actions of `main`.  Load events carry the
offered path and what the external loader returned. -/
inductive Event where
  | loadFile (path : String) (res : Option (DataFrame × List String)) (now : Rat)
  | addPlot (tsCol : String) (valueCols : List String) (name : String)
      (minDt maxDt : Nat)
  | updatePlotFreq (i : Nat) (newFreq : String)
  | removePlots (idxs : List Nat)
  | addRow (tsCol valCol : String) (ts : Nat) (v : Rat)
  | startRefresh (interval : Rat)
  | stopRefresh
  | logout

/-- One UI mutation and whether the handler called `save_session_state`
afterwards.

* `loadFile` (st.py 385-395 with 155-170): `st.session_state.file_path`
  is assigned first; on a successful load the frame, columns and markers
  are stored and the snapshot written; a failed or empty-path load keeps
  the recorded path but writes nothing.
* `addPlot` (421-424): appends
  `(ts_col, value_cols, name, min, max, 'Line', 'None')`, then saves.
* `updatePlotFreq` (489-499): `st.session_state.plots[i]` is replaced
  with the tuple carrying the newly selected frequency — with **no**
  `save_session_state` call.
* `removePlots` (538-540): deletes in descending index order, saving
  after each deletion.
* `addRow` (551-569): updates the frame and saves.
* `startRefresh`/`stopRefresh` (461-470) and `logout` (590-592) flip the
  flag and save. -/
def step (s : AppState) : Event → AppState × Bool
  | .loadFile path res now =>
    let s1 := { s with file_path := some path }
    if path ≠ "" then
      match res with
      | some (df, cols) =>
          ({ s1 with
             df := some df
             all_columns := some cols
             last_upload := some now
             file_last_modified := some now }, true)
      | none => (s1, false)
    else (s1, false)
  | .addPlot ts vcs nm mn mx =>
      ({ s with plots := s.plots ++ [⟨ts, vcs, nm, mn, mx, "Line", "None"⟩] }, true)
  | .updatePlotFreq i fstr =>
    match s.plots.get? i with
    | some p => ({ s with plots := s.plots.set i { p with freqStr := fstr } }, false)
    | none => (s, false)
  | .removePlots idxs =>
      ({ s with plots := idxs.reverse.foldl (fun ps i => ps.eraseIdx i) s.plots },
       !idxs.isEmpty)
  | .addRow tsCol valCol ts v =>
    match s.df with
    | some df => ({ s with df := some (addDataRow df tsCol valCol ts v) }, true)
    | none => (s, false)
  | .startRefresh interval =>
      ({ s with auto_refresh := true, refresh_interval := interval }, true)
  | .stopRefresh => ({ s with auto_refresh := false }, true)
  | .logout => ({ s with authenticated := false }, true)

/-- `list`-style selection (st.py 427-428 and 492): "All" keeps every
spec, otherwise those whose display name matches. -/
def listPlots (sel : String) (ps : List PlotSpec) : List PlotSpec :=
  if sel = "All" then ps else ps.filter (fun p => p.name == sel)

/-- `del st.session_state.plots[i]` (st.py 539). -/
def removePlotAt (ps : List PlotSpec) (i : Nat) : List PlotSpec := ps.eraseIdx i

/-! ### Refresh loop tick (st.py 574-583, 191-195) -/

/-- External observations made during one tick of the auto-refresh loop:
`time.time()` at the periodic-save check, the `time.time()` used as the
"current modification marker" (st.py 580), what `load_data` returns if
invoked, and the `time.time()` stored as the new marker on success. -/
structure TickIn where
  now : Rat
  modTime : Rat
  loadResult : Option (DataFrame × List String)
  loadTime : Rat

/-- Outcome of one tick: the resulting state, whether `periodic_save`
wrote the snapshot, whether `load_data` was re-run, and whether the
frame and marker were replaced (a replacement also writes the
snapshot, inside `refresh_data`). -/
structure TickOut where
  state : AppState
  periodicSaved : Bool
  loaderRan : Bool
  replaced : Bool

/-- `periodic_save` (st.py 191-195): write the snapshot iff at least 10
seconds passed since the last periodic save, and remember the time. -/
def periodic_save (s : AppState) (now : Rat) : AppState × Bool :=
  if 10 ≤ now - s.last_saved_time then ({ s with last_saved_time := now }, true)
  else (s, false)

/-- `refresh_data` (st.py 173-188): when a path is set, reload; on
success replace the frame, columns and marker and write the snapshot;
on failure change nothing. -/
def refresh_data (s : AppState) (res : Option (DataFrame × List String))
    (t : Rat) : AppState × Bool :=
  match s.file_path with
  | some p =>
    if p ≠ "" then
      match res with
      | some (df, cols) =>
          ({ s with
             df := some df
             all_columns := some cols
             file_last_modified := some t }, true)
      | none => (s, false)
    else (s, false)
  | none => (s, false)

/-- One iteration of the `while st.session_state.auto_refresh` loop
(st.py 576-583): after the sleep, run `periodic_save`; then, when a
path is set, compare the stored marker with the current `time.time()`
and call `refresh_data` exactly when they differ. -/
def refresh_tick (s : AppState) (inp : TickIn) : TickOut :=
  let ps := periodic_save s inp.now
  match ps.1.file_path with
  | some p =>
    if p ≠ "" then
      if ps.1.file_last_modified ≠ some inp.modTime then
        let rd := refresh_data ps.1 inp.loadResult inp.loadTime
        ⟨rd.1, ps.2, true, rd.2⟩
      else ⟨ps.1, ps.2, false, false⟩
    else ⟨ps.1, ps.2, false, false⟩
  | none => ⟨ps.1, ps.2, false, false⟩

/-- The observed coercible values of column `j`: what
`pd.to_datetime(df[col], errors='coerce').dropna()` leaves, and hence
what the UI's detected min/max datetimes range over (st.py 407-412). -/
def obsTimes (rows : List (List Value)) (j : Nat) : List Nat :=
  rows.filterMap (fun row => coerceCell (cellAt row j))

/-! ### Concrete frames and states used in witnesses and counterexamples -/

/-- The spec's scenario table: `ts` = 2024-01-01T00:00/01:00/02:00
(minutes 0, 60, 120), `v` = 1, 2, 3. -/
def scenDf : DataFrame :=
  ⟨["ts", "v"],
   [[Value.dt 0, Value.num 1], [Value.dt 60, Value.num 2], [Value.dt 120, Value.num 3]]⟩

/-- Two rows on 2024-01-01 and 2024-01-03: day buckets 0 and 2, with
bucket 1 empty. -/
def gapDf : DataFrame :=
  ⟨["ts", "v"], [[Value.dt 0, Value.num 1], [Value.dt 2880, Value.num 3]]⟩

/-- A frame with one unparseable timestamp cell. -/
def c1Df : DataFrame :=
  ⟨["ts", "v"],
   [[Value.dt 5, Value.num 1], [Value.txt "x", Value.num 2], [Value.dtStr 3, Value.num 3]]⟩

/-- Two rows in consecutive hour buckets. -/
def h2Df : DataFrame :=
  ⟨["ts", "v"], [[Value.dt 0, Value.num 1], [Value.dt 60, Value.num 2]]⟩

/-- A session state holding one plot spec. -/
def s0 : AppState :=
  { file_path := none
    df := none
    all_columns := none
    auto_refresh := false
    file_last_modified := none
    plots := [⟨"ts", ["v"], "P1", 0, 120, "Line", "None"⟩]
    refresh_interval := 10
    last_saved_time := 0
    authenticated := true
    last_upload := none }

/-- Two plot specs sharing the display name "P1". -/
def psDup : List PlotSpec :=
  [⟨"ts", ["v"], "P1", 0, 120, "Line", "None"⟩,
   ⟨"ts", ["w"], "P1", 0, 120, "Bar", "None"⟩]

/-- Two plot specs with distinct display names. -/
def psDistinct : List PlotSpec :=
  [⟨"ts", ["v"], "P1", 0, 120, "Line", "None"⟩,
   ⟨"ts", ["w"], "P2", 0, 120, "Bar", "None"⟩]

/-- A running session 5 seconds after the last periodic save, whose
stored marker differs from the current one. -/
def sTick : AppState :=
  { file_path := some "data.csv"
    df := some h2Df
    all_columns := some ["ts", "v"]
    auto_refresh := true
    file_last_modified := some 1
    plots := []
    refresh_interval := 10
    last_saved_time := 0
    authenticated := true
    last_upload := none }

/-- Tick observations: 5s elapsed, markers differ, reload succeeds. -/
def inpTick : TickIn :=
  { now := 5
    modTime := 2
    loadResult := some (scenDf, ["ts", "v"])
    loadTime := 6 }

/-- Tick observations: 12s elapsed, markers differ, reload fails. -/
def inpTickFail : TickIn :=
  { now := 12
    modTime := 2
    loadResult := none
    loadTime := 13 }

/-- An environment whose fetches succeed and whose parsers return the
scenario frame. -/
def env0 : Env :=
  { status := fun _ => 200
    contentType := fun _ => "text/plain"
    readCsvUrl := fun _ => scenDf
    readExcelUrl := fun _ => scenDf
    readCsvFile := fun _ => scenDf
    readExcelFile := fun _ => scenDf }

/-- A world with a loaded frame and an up-to-date snapshot. -/
def w0 : World := { state := sTick, snapshot := save_session_state sTick }

/-! ## Helper lemmas: exact rational arithmetic -/

theorem ratAdd_eq (a b : Rat) : ratAdd a b = a + b := by
  have ha : ((a.den : ℚ)) ≠ 0 := by
    exact_mod_cast a.den_nz
  have hb : ((b.den : ℚ)) ≠ 0 := by
    exact_mod_cast b.den_nz
  rw [ratAdd, Rat.mkRat_eq_div]
  push_cast
  conv_rhs => rw [← Rat.num_div_den a, ← Rat.num_div_den b]
  field_simp

theorem ratDivNat_eq (a : Rat) (n : Nat) : ratDivNat a n = a / (n : Rat) := by
  rcases Nat.eq_zero_or_pos n with hn | hn
  · subst hn
    simp [ratDivNat]
  · have ha : ((a.den : ℚ)) ≠ 0 := by
      exact_mod_cast a.den_nz
    have hnq : ((n : ℚ)) ≠ 0 := by
      exact_mod_cast Nat.pos_iff_ne_zero.mp hn
    rw [ratDivNat, Rat.mkRat_eq_div]
    push_cast
    conv_rhs => rw [← Rat.num_div_den a]
    field_simp

theorem sumR_eq (xs : List Rat) : sumR xs = xs.sum := by
  induction xs with
  | nil => rfl
  | cons q qs ih => rw [sumR, ratAdd_eq, ih, List.sum_cons]

theorem ratMean_eq (xs : List Rat) : ratMean xs = xs.sum / (xs.length : Rat) := by
  rw [ratMean, ratDivNat_eq, sumR_eq]

theorem ratMean_single (q : Rat) : ratMean [q] = q := by
  rw [ratMean_eq]
  simp

/-! ## Helper lemmas: the civil calendar -/

theorem daysInYear_pos (y : Nat) : 0 < daysInYear y := by
  rw [daysInYear]; split <;> omega

theorem daysInMonth_pos (y m : Nat) : 0 < daysInMonth y m := by
  rw [daysInMonth]
  split
  · split <;> omega
  · split <;> omega

theorem dayToYearAux_spec (k : Nat) : ∀ k0 fuel r, yearSeg k0 k + r < fuel →
    r < daysInYear (2024 + k0 + k) →
    dayToYearAux fuel k0 (yearSeg k0 k + r) = (k0 + k, r) := by
  induction k with
  | zero =>
    intro k0 fuel r hfuel hr
    rw [yearSeg] at hfuel ⊢
    cases fuel with
    | zero => omega
    | succ f =>
      rw [dayToYearAux]
      rw [if_pos (by simpa using hr)]
      simp
  | succ k ih =>
    intro k0 fuel r hfuel hr
    have hpos := daysInYear_pos (2024 + k0)
    rw [yearSeg] at hfuel ⊢
    cases fuel with
    | zero => omega
    | succ f =>
      rw [dayToYearAux]
      rw [if_neg (by omega)]
      have harg : daysInYear (2024 + k0) + yearSeg (k0 + 1) k + r - daysInYear (2024 + k0)
          = yearSeg (k0 + 1) k + r := by omega
      rw [harg]
      have hidx : 2024 + (k0 + 1) + k = 2024 + k0 + (k + 1) := by omega
      have := ih (k0 + 1) f r (by omega) (by rw [hidx]; exact hr)
      rw [this]
      congr 1
      omega

theorem dayToYear_spec (k r : Nat) (hr : r < daysInYear (2024 + k)) :
    dayToYear 0 (yearSeg 0 k + r) = (k, r) := by
  rw [dayToYear]
  have := dayToYearAux_spec k 0 (yearSeg 0 k + r + 1) r (by omega)
    (by simpa using hr)
  simpa using this

theorem monthSeg_add (y : Nat) (a : Nat) : ∀ m0 b,
    monthSeg y m0 (a + b) = monthSeg y m0 a + monthSeg y (m0 + a) b := by
  induction a with
  | zero => intro m0 b; simp [monthSeg]
  | succ a ih =>
    intro m0 b
    have h1 : a + 1 + b = (a + b) + 1 := by omega
    rw [h1, monthSeg, monthSeg, ih (m0 + 1) b]
    have h2 : m0 + 1 + a = m0 + (a + 1) := by omega
    rw [h2]
    omega

theorem monthSeg_full (y : Nat) : monthSeg y 1 12 = daysInYear y := by
  cases h : isLeap y <;>
    simp [monthSeg, daysInMonth, daysInYear, h]

theorem dayToMonthAux_spec (y j : Nat) : ∀ m0 fuel r, j ≤ fuel →
    r < daysInMonth y (m0 + j) →
    dayToMonthAux y fuel m0 (monthSeg y m0 j + r) = (m0 + j, r) := by
  induction j with
  | zero =>
    intro m0 fuel r _ hr
    rw [monthSeg]
    cases fuel with
    | zero => simp [dayToMonthAux]
    | succ f =>
      rw [dayToMonthAux]
      rw [if_pos (by simpa using hr)]
      simp
  | succ j ih =>
    intro m0 fuel r hfuel hr
    have hpos := daysInMonth_pos y m0
    rw [monthSeg]
    cases fuel with
    | zero => omega
    | succ f =>
      rw [dayToMonthAux]
      rw [if_neg (by omega)]
      have harg : daysInMonth y m0 + monthSeg y (m0 + 1) j + r - daysInMonth y m0
          = monthSeg y (m0 + 1) j + r := by omega
      rw [harg]
      have hidx : m0 + 1 + j = m0 + (j + 1) := by omega
      have := ih (m0 + 1) f r (by omega) (by rw [hidx]; exact hr)
      rw [this, hidx]

theorem dayToMonth_spec (y M r : Nat) (hM : M ≤ 11) (hr : r < daysInMonth y (1 + M)) :
    dayToMonth y 1 (monthSeg y 1 M + r) = (1 + M, r) := by
  rw [dayToMonth]
  exact dayToMonthAux_spec y M 1 (12 - 1) r (by omega) hr

theorem monthSeg_succ_right (y m0 j : Nat) :
    monthSeg y m0 (j + 1) = monthSeg y m0 j + daysInMonth y (m0 + j) := by
  rw [monthSeg_add y j m0 1, monthSeg, monthSeg]
  omega

/-- The pandas bucket label of a bucket lies in that bucket, for each of
the six frequencies: re-grouping a resampled frame lands every row back
in its own bucket. -/
theorem key_label (f : Freq) (b : Nat) : Freq.key f (Freq.label f b) = b := by
  cases f with
  | minute => rfl
  | hour =>
    show b * 60 / 60 = b
    omega
  | day =>
    show b * 1440 / 1440 = b
    omega
  | week =>
    show (b * 7 + 6) * 1440 / 10080 = b
    omega
  | year =>
    show yearIdxOf ((yearStartDay b + (daysInYear (2024 + b) - 1)) * 1440) = b
    have hpos := daysInYear_pos (2024 + b)
    rw [yearIdxOf, yearStartDay, Nat.mul_div_cancel _ (by omega : 0 < 1440)]
    rw [dayToYear_spec b (daysInYear (2024 + b) - 1) (by omega)]
  | month =>
    show monthIdxOf _ = b
    set K := b / 12 with hK
    set M := b % 12 with hM
    have hM11 : M ≤ 11 := by omega
    set y := 2024 + K with hy
    have hmsd : monthStartDay y (M + 1) = monthSeg y 1 M := by
      rw [monthStartDay, Nat.add_sub_cancel]
    have hdim := daysInMonth_pos y (M + 1)
    have hcomm : (1 : Nat) + M = M + 1 := by omega
    have hseg1 : monthSeg y 1 (M + 1) = monthSeg y 1 M + daysInMonth y (M + 1) := by
      rw [monthSeg_succ_right, hcomm]
    have hsegle : monthSeg y 1 (M + 1) ≤ daysInYear y := by
      rw [← monthSeg_full y]
      have hsplit := monthSeg_add y (M + 1) 1 (11 - M)
      have h12 : (M + 1) + (11 - M) = 12 := by omega
      rw [h12] at hsplit
      omega
    have hr : monthSeg y 1 M + (daysInMonth y (M + 1) - 1) < daysInYear (2024 + K) := by
      rw [← hy]
      omega
    rw [Freq.label]
    rw [monthIdxOf]
    rw [← hK, ← hy, hmsd]
    rw [Nat.mul_div_cancel _ (by omega : 0 < 1440)]
    rw [yearStartDay, Nat.add_assoc]
    rw [dayToYear_spec K _ hr]
    have hq : dayToMonth y 1 (monthSeg y 1 M + (daysInMonth y (M + 1) - 1))
        = (1 + M, daysInMonth y (M + 1) - 1) := by
      have := dayToMonth_spec y M (daysInMonth y (M + 1) - 1) hM11
        (by rw [hcomm]; omega)
      exact this
    rw [hq]
    simp only []
    omega

/-! ## Helper lemmas: lists, folds, ranges -/

theorem foldlMinP_le (l : List (Nat × List Value)) :
    ∀ a, l.foldl (fun acc p => Nat.min acc p.1) a ≤ a := by
  induction l with
  | nil => intro a; exact Nat.le_refl a
  | cons p t ih =>
    intro a
    calc t.foldl (fun acc p => Nat.min acc p.1) (Nat.min a p.1) ≤ Nat.min a p.1 := ih _
    _ ≤ a := Nat.min_le_left _ _

theorem foldlMinP_le_mem (l : List (Nat × List Value)) :
    ∀ a q, q ∈ l → l.foldl (fun acc p => Nat.min acc p.1) a ≤ q.1 := by
  induction l with
  | nil => intro a q hq; cases hq
  | cons p t ih =>
    intro a q hq
    rcases List.mem_cons.mp hq with h | h
    · subst h
      calc t.foldl (fun acc p => Nat.min acc p.1) (Nat.min a q.1) ≤ Nat.min a q.1 :=
            foldlMinP_le t _
      _ ≤ q.1 := Nat.min_le_right _ _
    · exact ih _ q h

theorem foldlMinP_eq (l : List (Nat × List Value)) :
    ∀ a, (∀ p ∈ l, a ≤ p.1) → l.foldl (fun acc p => Nat.min acc p.1) a = a := by
  induction l with
  | nil => intro a _; rfl
  | cons p t ih =>
    intro a h
    have hap : a ≤ p.1 := h p (List.mem_cons_self p t)
    have : Nat.min a p.1 = a := Nat.min_eq_left hap
    rw [List.foldl_cons, this]
    exact ih a (fun q hq => h q (List.mem_cons_of_mem p hq))

theorem le_foldlMaxP (l : List (Nat × List Value)) :
    ∀ a, a ≤ l.foldl (fun acc p => Nat.max acc p.1) a := by
  induction l with
  | nil => intro a; exact Nat.le_refl a
  | cons p t ih =>
    intro a
    calc a ≤ Nat.max a p.1 := Nat.le_max_left _ _
    _ ≤ t.foldl (fun acc p => Nat.max acc p.1) (Nat.max a p.1) := ih _

theorem mem_le_foldlMaxP (l : List (Nat × List Value)) :
    ∀ a q, q ∈ l → q.1 ≤ l.foldl (fun acc p => Nat.max acc p.1) a := by
  induction l with
  | nil => intro a q hq; cases hq
  | cons p t ih =>
    intro a q hq
    rcases List.mem_cons.mp hq with h | h
    · subst h
      calc q.1 ≤ Nat.max a q.1 := Nat.le_max_right _ _
      _ ≤ t.foldl (fun acc p => Nat.max acc p.1) (Nat.max a q.1) := le_foldlMaxP t _
    · exact ih _ q h

theorem foldlMaxP_eq (l : List (Nat × List Value)) :
    ∀ a m, (∀ p ∈ l, p.1 ≤ m) → a ≤ m → (a = m ∨ ∃ p ∈ l, p.1 = m) →
      l.foldl (fun acc p => Nat.max acc p.1) a = m := by
  induction l with
  | nil =>
    intro a m _ _ hw
    rcases hw with h | h
    · exact h
    · obtain ⟨p, hp, _⟩ := h; cases hp
  | cons p t ih =>
    intro a m hub ham hw
    rw [List.foldl_cons]
    have hub' : ∀ q ∈ t, q.1 ≤ m := fun q hq => hub q (List.mem_cons_of_mem p hq)
    have hpm : p.1 ≤ m := hub p (List.mem_cons_self p t)
    have hmax : Nat.max a p.1 ≤ m := Nat.max_le.mpr ⟨ham, hpm⟩
    rcases hw with h | h
    · subst h
      have : Nat.max a p.1 = a := Nat.max_eq_left hpm
      rw [this]
      exact ih a a hub' (Nat.le_refl a) (Or.inl rfl)
    · obtain ⟨q, hq, hqm⟩ := h
      rcases List.mem_cons.mp hq with h' | h'
      · subst h'
        have : Nat.max a q.1 = m := by rw [hqm]; exact Nat.max_eq_right ham
        rw [this]
        exact ih m m hub' (Nat.le_refl m) (Or.inl rfl)
      · exact ih _ m hub' hmax (Or.inr ⟨q, h', hqm⟩)

theorem kminOf_le_mem (pts : List (Nat × List Value)) (q : Nat × List Value)
    (hq : q ∈ pts) : kminOf pts ≤ q.1 := by
  cases pts with
  | nil => cases hq
  | cons p t =>
    rw [kminOf]
    rcases List.mem_cons.mp hq with h | h
    · subst h; exact foldlMinP_le t _
    · exact foldlMinP_le_mem t _ q h

theorem mem_le_kmaxOf (pts : List (Nat × List Value)) (q : Nat × List Value)
    (hq : q ∈ pts) : q.1 ≤ kmaxOf pts := by
  cases pts with
  | nil => cases hq
  | cons p t =>
    rw [kmaxOf]
    rcases List.mem_cons.mp hq with h | h
    · subst h; exact le_foldlMaxP t _
    · exact mem_le_foldlMaxP t _ q h

theorem kminOf_le_kmaxOf (pts : List (Nat × List Value)) (h : pts ≠ []) :
    kminOf pts ≤ kmaxOf pts := by
  cases pts with
  | nil => cases h rfl
  | cons p t =>
    calc kminOf (p :: t) ≤ p.1 := kminOf_le_mem _ p (List.mem_cons_self p t)
    _ ≤ kmaxOf (p :: t) := mem_le_kmaxOf _ p (List.mem_cons_self p t)

theorem kminOf_map_range (G : Nat → Nat × List Value) (kmin m' : Nat)
    (hG : ∀ i, (G i).1 = kmin + i) :
    kminOf ((List.range (m' + 1)).map G) = kmin := by
  rw [List.range_succ_eq_map, List.map_cons, List.map_map, kminOf]
  have h0 : (G 0).1 = kmin := by rw [hG 0]; omega
  rw [← h0]
  apply foldlMinP_eq
  intro p hp
  obtain ⟨i, _, rfl⟩ := List.mem_map.mp hp
  rw [h0, Function.comp_apply, hG]
  omega

theorem kmaxOf_map_range (G : Nat → Nat × List Value) (kmin m' : Nat)
    (hG : ∀ i, (G i).1 = kmin + i) :
    kmaxOf ((List.range (m' + 1)).map G) = kmin + m' := by
  rw [List.range_succ_eq_map, List.map_cons, List.map_map, kmaxOf]
  apply foldlMaxP_eq
  · intro p hp
    obtain ⟨i, hi, rfl⟩ := List.mem_map.mp hp
    rw [Function.comp_apply, hG]
    have : i < m' := List.mem_range.mp hi
    omega
  · rw [hG]; omega
  · cases m' with
    | zero => left; rw [hG]
    | succ m'' =>
      right
      refine ⟨(G ∘ Nat.succ) m'', List.mem_map.mpr ⟨m'', List.mem_range.mpr (by omega), rfl⟩, ?_⟩
      rw [Function.comp_apply, hG]

theorem map_getD_range (l : List α) (d : α) :
    (List.range l.length).map (fun i => l.getD i d) = l := by
  induction l with
  | nil => rfl
  | cons a t ih =>
    rw [List.length_cons, List.range_succ_eq_map, List.map_cons, List.map_map]
    have h1 : ((fun i => (a :: t).getD i d) ∘ Nat.succ) = fun i => t.getD i d := by
      funext i
      rw [Function.comp_apply, List.getD_cons_succ]
    rw [h1, ih, List.getD_cons_zero]

theorem map_getD_cons_range' (a : α) (l : List α) (d : α) :
    (List.range' 1 l.length).map (fun c => (a :: l).getD c d) = l := by
  rw [List.range'_eq_map_range, List.map_map]
  have h1 : ((fun c => (a :: l).getD c d) ∘ (fun i => 1 + i)) = fun i => l.getD i d := by
    funext i
    have : 1 + i = i + 1 := by omega
    rw [Function.comp_apply, this, List.getD_cons_succ]
  rw [h1, map_getD_range]

theorem range_succ_left (n : Nat) : List.range (n + 1) = 0 :: List.range' 1 n := by
  rw [List.range_succ_eq_map, List.range'_eq_map_range]
  congr 1
  apply List.map_congr_left
  intro i _
  omega

theorem filter_beq_range (m i : Nat) (h : i < m) :
    (List.range m).filter (fun x => x == i) = [i] := by
  induction m with
  | zero => omega
  | succ m ih =>
    rw [List.range_succ, List.filter_append]
    rcases Nat.lt_or_ge i m with h' | h'
    · rw [ih h']
      have : (m == i) = false := by
        simp only [beq_eq_false_iff_ne]
        omega
      simp [this]
    · have him : i = m := by omega
      subst him
      have hnil : (List.range i).filter (fun x => x == i) = [] := by
        apply List.filter_eq_nil_iff.mpr
        intro a ha
        have : a < i := List.mem_range.mp ha
        simp only [beq_iff_eq]
        omega
      rw [hnil]
      simp

theorem filterMap_all_some {f : α → Option β} {g : α → β} (l : List α)
    (h : ∀ a ∈ l, f a = some (g a)) : l.filterMap f = l.map g := by
  induction l with
  | nil => rfl
  | cons a t ih =>
    rw [List.filterMap_cons, h a (List.mem_cons_self a t), List.map_cons,
      ih (fun b hb => h b (List.mem_cons_of_mem a hb))]

/-! ## Claim C1: filtering over the full observed range -/

theorem obsTimes_eq (rows : List (List Value)) (j : Nat) :
    obsTimes rows j = (coercedPairs rows j).map Prod.fst := by
  induction rows with
  | nil => rfl
  | cons row t ih =>
    rw [obsTimes, coercedPairs] at ih ⊢
    rw [List.filterMap_cons, List.filterMap_cons]
    cases coerceCell (cellAt row j) with
    | none => simpa using ih
    | some t' => simpa using ih

/-- Claim C1: for every table and timestamp column, filtering with
inclusive bounds equal to the minimum and maximum observed (coerced)
values and no bucket size keeps exactly the rows whose filter-column
value coerces to a datetime, in their original order, with the filter
cell replaced by its coerced datetime (step (a)'s column coercion) and
all other cells unchanged; rows that fail coercion are dropped. -/
theorem filter_full_range (df : DataFrame) (tsCol : String) (j lo hi : Nat)
    (hj : colIndex df.header tsCol = some j)
    (hlo : (obsTimes df.rows j).min? = some lo)
    (hhi : (obsTimes df.rows j).max? = some hi) :
    filter_data df tsCol lo hi none
      = ⟨df.header,
         df.rows.filterMap
           (fun row => (coerceCell (cellAt row j)).map (fun t => row.set j (Value.dt t)))⟩ := by
  have hmin := (List.min?_eq_some_iff'.mp hlo).2
  have hmax := (List.max?_eq_some_iff'.mp hhi).2
  have hmask : maskedPairs df.rows j lo hi = coercedPairs df.rows j := by
    rw [maskedPairs]
    apply List.filter_eq_self.mpr
    intro p hp
    have hmem : p.1 ∈ obsTimes df.rows j := by
      rw [obsTimes_eq]
      exact List.mem_map_of_mem Prod.fst hp
    have h1 := hmin _ hmem
    have h2 := hmax _ hmem
    simp [h1, h2]
  simp only [filter_data, hj, hmask]
  congr 1
  rw [coercedPairs, List.map_filterMap]
  apply List.filterMap_congr
  intro row _
  cases coerceCell (cellAt row j) <;> rfl

/-- Witness for C1: on `c1Df` the bounds [3, 5] are the observed min and
max; the unparseable row is dropped and the two coercible rows survive
in order. -/
theorem filter_full_range_witness :
    filter_data c1Df "ts" 3 5 none
      = ⟨["ts", "v"], [[Value.dt 5, Value.num 1], [Value.dt 3, Value.num 3]]⟩ := by
  have h := filter_full_range c1Df "ts" 0 3 5 (by decide) (by decide) (by decide)
  rw [h]
  decide

/-! ## Claim C2: resampling into buckets -/

theorem ptsOf_ne (df : DataFrame) (j lo hi : Nat) (f : Freq)
    (hne : maskedPairs df.rows j lo hi ≠ []) : ptsOf df j lo hi f ≠ [] := by
  rw [ptsOf, keyedPts]
  intro h
  exact hne (List.map_eq_nil_iff.mp h)

/-- The resample branch of `filter_data` in closed form: the filter
column first, then the numeric columns, and one row per bucket of the
occupied span. -/
theorem filter_some_eq (df : DataFrame) (tsCol : String) (j lo hi : Nat) (f : Freq)
    (hj : colIndex df.header tsCol = some j)
    (hne : maskedPairs df.rows j lo hi ≠ []) :
    filter_data df tsCol lo hi (some f)
      = ⟨tsCol :: (numericIdx df j).map (fun c => df.header.getD c ""),
         (List.range (kmaxOf (ptsOf df j lo hi f) + 1 - kminOf (ptsOf df j lo hi f))).map
           (fun i => Value.dt (Freq.label f (kminOf (ptsOf df j lo hi f) + i))
              :: meansOf (numericIdx df j).length
                   ((ptsOf df j lo hi f).filter
                     (fun p => p.1 == kminOf (ptsOf df j lo hi f) + i)))⟩ := by
  have hpts := ptsOf_ne df j lo hi f hne
  simp only [filter_data, hj]
  congr 1
  rw [resampleRows, if_neg (by simpa using hpts)]

/-- Claim C2 (amended): for every filtered table and every bucket size,
resampling produces exactly one output row per bucket from the first to
the last occupied bucket (empty intermediate buckets included, their
numeric columns NaN), ordered by bucket start; each row is keyed by its
bucket (bucket of the row's timestamp = its position in the span) and
carries the per-bucket arithmetic means of the numeric columns. -/
theorem resample_bucket_span (df : DataFrame) (tsCol : String) (j lo hi : Nat) (f : Freq)
    (hj : colIndex df.header tsCol = some j)
    (hne : maskedPairs df.rows j lo hi ≠ []) :
    (filter_data df tsCol lo hi (some f)).rows.length
        = kmaxOf (ptsOf df j lo hi f) + 1 - kminOf (ptsOf df j lo hi f)
    ∧ (filter_data df tsCol lo hi (some f)).rows.map
          (fun r => (coerceCell (cellAt r 0)).map (Freq.key f))
        = (List.range' (kminOf (ptsOf df j lo hi f))
            (kmaxOf (ptsOf df j lo hi f) + 1 - kminOf (ptsOf df j lo hi f))).map some
    ∧ ∀ i, ∀ hilt : i < (filter_data df tsCol lo hi (some f)).rows.length,
        ((filter_data df tsCol lo hi (some f)).rows.get ⟨i, hilt⟩).tail
          = meansOf (numericIdx df j).length
              ((ptsOf df j lo hi f).filter
                (fun p => p.1 == kminOf (ptsOf df j lo hi f) + i)) := by
  rw [filter_some_eq df tsCol j lo hi f hj hne]
  refine ⟨by simp, ?_, ?_⟩
  · rw [List.map_map, List.range'_eq_map_range, List.map_map]
    apply List.map_congr_left
    intro i _
    simp only [Function.comp_apply, cellAt, List.getD_cons_zero, coerceCell,
      Option.map_some', key_label]
  · intro i hilt
    simp only [List.length_map, List.length_range] at hilt
    rw [List.get_eq_getElem, List.getElem_map, List.getElem_range]
    rfl

/-- Counterexample to C2 as stated: with rows on 2024-01-01 and
2024-01-03 only (day buckets 0 and 2 occupied), day-resampling emits 3
rows, not one per non-empty bucket — the empty middle bucket gets a row
with a NaN mean. -/
theorem resample_gap_counterexample :
    (filter_data gapDf "ts" 0 2880 (some Freq.day)).rows.length = 3
    ∧ ((maskedPairs gapDf.rows 0 0 2880).map (fun p => Freq.key Freq.day p.1)) = [0, 2]
    ∧ (filter_data gapDf "ts" 0 2880 (some Freq.day)).rows.getD 1 []
        = [Value.dt 1440, Value.null] := by
  decide

/-- Witness for C2: the spec's scenario — three hourly readings 1, 2, 3
on one day, day bucket — yields exactly one row with mean 2.0, and the
span theorem instantiates on it. -/
theorem resample_bucket_span_witness :
    (filter_data scenDf "ts" 0 120 (some Freq.day)).rows = [[Value.dt 0, Value.num 2]]
    ∧ (filter_data scenDf "ts" 0 120 (some Freq.day)).rows.length
        = kmaxOf (ptsOf scenDf 0 0 120 Freq.day) + 1 - kminOf (ptsOf scenDf 0 0 120 Freq.day) :=
  ⟨by decide, (resample_bucket_span scenDf "ts" 0 0 120 Freq.day (by decide) (by decide)).1⟩

/-! ## Claim C4: snapshot round trip -/

/-- Claim C4: loading a snapshot produced by `save_session_state`
restores the identical Table, PlotSpec list, and refresh settings —
`load_session_state` after `save_session_state` is the identity on
those fields, whatever state it overwrites. -/
theorem save_load_roundtrip (sPrev s : AppState) :
    (load_session_state sPrev (save_session_state s)).df = s.df
    ∧ (load_session_state sPrev (save_session_state s)).plots = s.plots
    ∧ (load_session_state sPrev (save_session_state s)).auto_refresh = s.auto_refresh
    ∧ (load_session_state sPrev (save_session_state s)).refresh_interval = s.refresh_interval := by
  refine ⟨?_, ?_, ?_, ?_⟩ <;> rfl

/-! ## Claim C3: write-through on mutations -/

/-- Counterexample to C3 as stated: changing a plot spec's bucket size
(st.py line 499) mutates the session state but is not followed by any
`save_session_state` call. -/
theorem update_plot_no_save_counterexample :
    (step s0 (Event.updatePlotFreq 0 "Hour")).1 ≠ s0
    ∧ (step s0 (Event.updatePlotFreq 0 "Hour")).2 = false := by
  decide

/-- Claim C3 (amended): every state-changing UI action is immediately
followed by a snapshot write, except the in-place plot-spec update
(bucket size / chart kind, st.py 499) and a load that records the
offered path but fails or is empty: whenever a handler does not save,
either the state is unchanged or the event is one of those two. -/
theorem step_write_through (s : AppState) (e : Event)
    (h : (step s e).2 = false) :
    (step s e).1 = s
    ∨ (∃ i fstr, e = Event.updatePlotFreq i fstr)
    ∨ (∃ path res now, e = Event.loadFile path res now ∧ (res = none ∨ path = "")) := by
  cases e with
  | loadFile path res now =>
    right; right
    refine ⟨path, res, now, rfl, ?_⟩
    by_cases hp : path = ""
    · right; exact hp
    · left
      cases res with
      | none => rfl
      | some pr =>
        exfalso
        simp [step, hp] at h
  | addPlot ts vcs nm mn mx => exfalso; simp [step] at h
  | updatePlotFreq i fstr => right; left; exact ⟨i, fstr, rfl⟩
  | removePlots idxs =>
    left
    have hempty : idxs.isEmpty = true := by
      by_contra hne
      simp [step, hne] at h
    have hnil : idxs = [] := List.isEmpty_iff.mp hempty
    subst hnil
    rfl
  | addRow a b c d =>
    cases hdf : s.df with
    | some df => exfalso; simp [step, hdf] at h
    | none => left; simp [step, hdf]
  | startRefresh i => exfalso; simp [step] at h
  | stopRefresh => exfalso; simp [step] at h
  | logout => exfalso; simp [step] at h

/-- Witness for C3 (amended) at the plot-update event. -/
theorem step_write_through_witness :
    (step s0 (Event.updatePlotFreq 1 "Daily")).1 = s0
    ∨ (∃ i fstr, Event.updatePlotFreq 1 "Daily" = Event.updatePlotFreq i fstr)
    ∨ (∃ path res now, Event.updatePlotFreq 1 "Daily" = Event.loadFile path res now
        ∧ (res = none ∨ path = "")) :=
  step_write_through s0 (Event.updatePlotFreq 1 "Daily") (by decide)

/-! ## Claim C9: add requires a non-empty name? -/

/-- Counterexample to C9 as stated: "Add Plot" performs no check on the
name (st.py 421-424); adding with an empty display name still appends a
spec and changes the list. -/
theorem add_empty_name_counterexample :
    (step s0 (Event.addPlot "ts" ["v"] "" 0 120)).1.plots
      = s0.plots ++ [⟨"ts", ["v"], "", 0, 120, "Line", "None"⟩]
    ∧ (step s0 (Event.addPlot "ts" ["v"] "" 0 120)).1.plots ≠ s0.plots := by
  decide

/-- Claim C9 (amended): the add operation appends the new PlotSpec
unconditionally — the display name, empty or not, is never validated —
and the append is followed by a snapshot write. -/
theorem add_plot_appends (s : AppState) (ts : String) (vcs : List String)
    (nm : String) (mn mx : Nat) :
    (step s (Event.addPlot ts vcs nm mn mx)).1.plots
      = s.plots ++ [⟨ts, vcs, nm, mn, mx, "Line", "None"⟩]
    ∧ (step s (Event.addPlot ts vcs nm mn mx)).2 = true :=
  ⟨rfl, rfl⟩

/-! ## Claim C6: remove then list "All" -/

theorem map_eraseIdx (f : α → β) : ∀ (l : List α) (i : Nat),
    (l.eraseIdx i).map f = (l.map f).eraseIdx i := by
  intro l
  induction l with
  | nil => intro i; rfl
  | cons a t ih =>
    intro i
    cases i with
    | zero => rfl
    | succ i => simp [List.eraseIdx_cons_succ, ih i]

theorem nodup_get_not_mem_eraseIdx (l : List α) : ∀ (i : Nat) (h : i < l.length),
    l.Nodup → l.get ⟨i, h⟩ ∉ l.eraseIdx i := by
  induction l with
  | nil => intro i h; simp at h
  | cons a t ih =>
    intro i h hnd
    obtain ⟨hna, hndt⟩ := List.nodup_cons.mp hnd
    cases i with
    | zero => simpa using hna
    | succ i =>
      have hlt : i < t.length := by simpa using h
      intro hmem
      rw [List.eraseIdx_cons_succ] at hmem
      rcases List.mem_cons.mp hmem with heq | hmem'
      · exact hna (heq ▸ List.get_mem t i hlt)
      · exact ih i hlt hndt hmem'

/-- Claim C6 (amended): when display names are unique in the list,
removing the spec at index `i` and then listing "All" yields a list in
which the removed spec's display name no longer occurs. -/
theorem remove_then_list_all (ps : List PlotSpec) (i : Nat) (h : i < ps.length)
    (hnd : (ps.map (fun p => p.name)).Nodup) :
    (ps.get ⟨i, h⟩).name ∉ (listPlots "All" (removePlotAt ps i)).map (fun p => p.name) := by
  rw [listPlots, if_pos rfl, removePlotAt, map_eraseIdx]
  have hlen : i < (ps.map (fun p => p.name)).length := by simpa using h
  have hmain := nodup_get_not_mem_eraseIdx (ps.map (fun p => p.name)) i hlen hnd
  have hg : (ps.map (fun p => p.name)).get ⟨i, hlen⟩ = (ps.get ⟨i, h⟩).name := by
    simp [List.get_eq_getElem]
  rwa [hg] at hmain

/-- Counterexample to C6 as stated: with two specs both named "P1",
removing index 0 and listing "All" still returns the name "P1". -/
theorem remove_duplicate_name_counterexample :
    (psDup.get ⟨0, by decide⟩).name
      ∈ (listPlots "All" (removePlotAt psDup 0)).map (fun p => p.name) := by
  decide

/-- Witness for C6 (amended) on a list with distinct names. -/
theorem remove_then_list_all_witness :
    (psDistinct.get ⟨0, by decide⟩).name
      ∉ (listPlots "All" (removePlotAt psDistinct 0)).map (fun p => p.name) :=
  remove_then_list_all psDistinct 0 (by decide) (by decide)

/-! ## Claim C7: unsupported format aborts without partial load -/

/-- Claim C7: when the source's format is recognized neither by
extension (local path) nor by content type / extension (HTTP source
with a successful fetch), `load_data` fails with the
unsupported-format error path, and `load_data_into_session` leaves the
in-memory Table, column list and persisted snapshot — the whole world —
unchanged. -/
theorem unsupported_format_no_partial_load (env : Env) (w : World) (path : String)
    (now : Rat)
    (hfmt :
      ((pyStarts path "http://" || pyStarts path "https://") = false
        ∧ pyEnds path ".csv" = false ∧ pyEnds path ".xlsx" = false
        ∧ pyEnds path ".xls" = false)
      ∨ ((pyStarts path "http://" || pyStarts path "https://") = true
        ∧ env.status path = 200
        ∧ pyContains (env.contentType path) "csv" = false
        ∧ pyContains (env.contentType path) "excel" = false
        ∧ pyEnds path ".xlsx" = false ∧ pyEnds path ".xls" = false)) :
    load_data env path = none ∧ load_data_into_session env w path now = w := by
  have hld : load_data env path = none := by
    rcases hfmt with ⟨h1, h2, h3, h4⟩ | ⟨h1, h2, h3, h4, h5, h6⟩
    · rw [load_data, if_neg (by simp [h1]), if_neg (by simp [h2]),
        if_neg (by simp [h3, h4])]
    · rw [load_data, if_pos (by simp [h1]), if_neg (by simp [h2]),
        if_neg (by simp [h3]), if_neg (by simp [h4, h5, h6])]
  refine ⟨hld, ?_⟩
  by_cases hp : path = ""
  · simp [load_data_into_session, hp]
  · simp [load_data_into_session, hp, hld]

/-- Witness for C7: a `.txt` path in an environment where every fetch
would succeed. -/
theorem unsupported_format_witness :
    load_data env0 "data.txt" = none
    ∧ load_data_into_session env0 w0 "data.txt" 7 = w0 :=
  unsupported_format_no_partial_load env0 w0 "data.txt" 7 (Or.inl (by decide))

/-! ## Claim C10: the filter never propagates an error -/

/-- Claim C10: `filter_data` is total and never surfaces an error:
either the filter column exists (the normal path), or the caught
exception yields the empty `pd.DataFrame()` — whose rows are
indistinguishable from a legitimate filter that matched no rows, as the
empty-frame probe shows. -/
theorem filter_data_never_fails (df : DataFrame) (tsCol : String) (lo hi : Nat)
    (fr : Option Freq) :
    (∃ j, colIndex df.header tsCol = some j)
    ∨ (filter_data df tsCol lo hi fr = ⟨[], []⟩
       ∧ (filter_data (DataFrame.mk [tsCol] []) tsCol lo hi fr).rows = []) := by
  cases hc : colIndex df.header tsCol with
  | some j => exact Or.inl ⟨j, rfl⟩
  | none =>
    right
    have h0 : colIndex [tsCol] tsCol = some 0 := by simp [colIndex]
    constructor
    · cases fr <;> simp [filter_data, hc]
    · cases fr with
      | none => simp [filter_data, h0, maskedPairs, coercedPairs]
      | some f =>
        simp [filter_data, h0, resampleRows, ptsOf, keyedPts, maskedPairs, coercedPairs]

/-! ## Claim C5: the auto-refresh tick -/

/-- Claim C5 (amended): on each tick while Running with a source path
set, the periodic-save path writes the snapshot iff at least 10 seconds
elapsed since the last periodic save; the Loader is re-run exactly when
the stored marker differs from the current one; and the Table, column
list and marker are replaced exactly when the markers differ **and**
the reload succeeds (the successful reload writes the snapshot as
well). -/
theorem refresh_tick_spec (s : AppState) (inp : TickIn) (p : String)
    (hp : s.file_path = some p) (hpne : p ≠ "") :
    ((refresh_tick s inp).periodicSaved = true ↔ 10 ≤ inp.now - s.last_saved_time)
    ∧ ((refresh_tick s inp).loaderRan = true ↔ s.file_last_modified ≠ some inp.modTime)
    ∧ ((refresh_tick s inp).replaced = true
        ↔ (s.file_last_modified ≠ some inp.modTime ∧ inp.loadResult ≠ none))
    ∧ (∀ df cols, inp.loadResult = some (df, cols) →
        s.file_last_modified ≠ some inp.modTime →
        (refresh_tick s inp).state.df = some df
        ∧ (refresh_tick s inp).state.all_columns = some cols
        ∧ (refresh_tick s inp).state.file_last_modified = some inp.loadTime) := by
  by_cases hsave : 10 ≤ inp.now - s.last_saved_time <;>
    by_cases hdiff : s.file_last_modified = some inp.modTime
  · cases hres : inp.loadResult with
    | none => simp [refresh_tick, periodic_save, refresh_data, hp, hpne, hsave, hdiff, hres]
    | some pr => simp [refresh_tick, periodic_save, refresh_data, hp, hpne, hsave, hdiff, hres]
  · cases hres : inp.loadResult with
    | none => simp [refresh_tick, periodic_save, refresh_data, hp, hpne, hsave, hdiff, hres]
    | some pr =>
      cases pr with
      | mk df cols =>
        simp [refresh_tick, periodic_save, refresh_data, hp, hpne, hsave, hdiff, hres]
  · cases hres : inp.loadResult with
    | none => simp [refresh_tick, periodic_save, refresh_data, hp, hpne, hsave, hdiff, hres]
    | some pr => simp [refresh_tick, periodic_save, refresh_data, hp, hpne, hsave, hdiff, hres]
  · cases hres : inp.loadResult with
    | none => simp [refresh_tick, periodic_save, refresh_data, hp, hpne, hsave, hdiff, hres]
    | some pr =>
      cases pr with
      | mk df cols =>
        simp [refresh_tick, periodic_save, refresh_data, hp, hpne, hsave, hdiff, hres]

/-- Counterexample to C5 as stated: on a tick only 5 seconds after the
last periodic save, with markers differing and the reload succeeding,
the snapshot *is* written (inside `refresh_data`), refuting "writes the
snapshot if and only if at least 10 seconds have elapsed since the last
write". -/
theorem tick_save_counterexample :
    ((refresh_tick sTick inpTick).periodicSaved
      || (refresh_tick sTick inpTick).replaced) = true
    ∧ ¬ (10 ≤ inpTick.now - sTick.last_saved_time) := by
  constructor
  · norm_num [refresh_tick, periodic_save, refresh_data, sTick, inpTick]
    decide
  · norm_num [sTick, inpTick]

/-- Witness for C5 (amended), instantiated on a concrete running
session. -/
theorem refresh_tick_spec_witness :
    ((refresh_tick sTick inpTickFail).periodicSaved = true
        ↔ 10 ≤ inpTickFail.now - sTick.last_saved_time)
    ∧ ((refresh_tick sTick inpTickFail).loaderRan = true
        ↔ sTick.file_last_modified ≠ some inpTickFail.modTime)
    ∧ ((refresh_tick sTick inpTickFail).replaced = true
        ↔ (sTick.file_last_modified ≠ some inpTickFail.modTime
            ∧ inpTickFail.loadResult ≠ none))
    ∧ (∀ df cols, inpTickFail.loadResult = some (df, cols) →
        sTick.file_last_modified ≠ some inpTickFail.modTime →
        (refresh_tick sTick inpTickFail).state.df = some df
        ∧ (refresh_tick sTick inpTickFail).state.all_columns = some cols
        ∧ (refresh_tick sTick inpTickFail).state.file_last_modified
            = some inpTickFail.loadTime) :=
  refresh_tick_spec sTick inpTickFail "data.csv" rfl (by decide)

/-! ## Claim C8: idempotence of resampling -/

theorem getD_lt (l : List α) (d : α) (k : Nat) (h : k < l.length) :
    l.getD k d = l[k] := by
  simp [List.getD_eq_getElem?_getD, List.getElem?_eq_getElem h]

theorem getD_ge (l : List α) (d : α) (k : Nat) (h : l.length ≤ k) :
    l.getD k d = d := by
  simp [List.getD_eq_getElem?_getD, List.getElem?_eq_none h]

theorem meansOf_length (n : Nat) (bucket : List (Nat × List Value)) :
    (meansOf n bucket).length = n := by
  simp [meansOf]

theorem filterMap_single (g : α → Option β) (a : α) :
    [a].filterMap g = (g a).toList := by
  cases h : g a <;> simp [List.filterMap_cons, h]

theorem numericCell_meansOf (n : Nat) (bucket : List (Nat × List Value)) (k : Nat) :
    numericCell ((meansOf n bucket).getD k Value.null) = true := by
  rcases Nat.lt_or_ge k n with hk | hk
  · have hlen : k < (meansOf n bucket).length := by rw [meansOf_length]; exact hk
    rw [getD_lt _ _ _ hlen]
    simp only [meansOf, List.getElem_map, List.getElem_range]
    split <;> rfl
  · have hlen : (meansOf n bucket).length ≤ k := by rw [meansOf_length]; exact hk
    rw [getD_ge _ _ _ hlen]
    rfl

theorem meansOf_elem (n : Nat) (bucket : List (Nat × List Value)) (c : Nat) (hc : c < n) :
    cellAt (meansOf n bucket) c
      = (if (bucket.filterMap (fun p => asNum (cellAt p.2 c))).isEmpty then Value.null
         else Value.num (ratMean (bucket.filterMap (fun p => asNum (cellAt p.2 c))))) := by
  have hlen : c < (meansOf n bucket).length := by rw [meansOf_length]; exact hc
  rw [cellAt, getD_lt _ _ _ hlen]
  simp only [meansOf, List.getElem_map, List.getElem_range]

/-- The mean of a one-row bucket whose cells are themselves bucket
means reproduces those means: NaN stays NaN, and a single value is its
own average. -/
theorem meansOf_single (n b : Nat) (bucket : List (Nat × List Value)) :
    meansOf n [(b, meansOf n bucket)] = meansOf n bucket := by
  conv_lhs => rw [meansOf]
  conv_rhs => rw [meansOf]
  apply List.map_congr_left
  intro c hc
  have hcn : c < n := List.mem_range.mp hc
  rw [filterMap_single]
  show (if ((asNum (cellAt (meansOf n bucket) c)).toList).isEmpty then Value.null
        else Value.num (ratMean (asNum (cellAt (meansOf n bucket) c)).toList)) = _
  rw [meansOf_elem n bucket c hcn]
  by_cases h0 : (bucket.filterMap (fun p => asNum (cellAt p.2 c))).isEmpty
  · rw [if_pos h0]
    rfl
  · rw [if_neg h0]
    show Value.num (ratMean [ratMean (bucket.filterMap (fun p => asNum (cellAt p.2 c)))])
        = Value.num (ratMean (bucket.filterMap (fun p => asNum (cellAt p.2 c))))
    rw [ratMean_single]

/-- Re-filtering and re-resampling a frame already in resampled
canonical form (filter column of bucket labels first, then bucket-mean
columns, one row per consecutive bucket) reproduces it exactly,
provided the bounds cover all the labels. -/
theorem refilter_canonical (tsCol : String) (names : List String) (f : Freq)
    (kmin m' : Nat) (B : Nat → List (Nat × List Value)) (lo' hi' : Nat)
    (hcov : ∀ i, i < m' + 1 →
      lo' ≤ Freq.label f (kmin + i) ∧ Freq.label f (kmin + i) ≤ hi') :
    filter_data
      ⟨tsCol :: names,
        (List.range (m' + 1)).map (fun i =>
          Value.dt (Freq.label f (kmin + i)) :: meansOf names.length (B i))⟩
      tsCol lo' hi' (some f)
    = ⟨tsCol :: names,
        (List.range (m' + 1)).map (fun i =>
          Value.dt (Freq.label f (kmin + i)) :: meansOf names.length (B i))⟩ := by
  have hcol : colIndex (tsCol :: names) tsCol = some 0 := by
    simp [colIndex]
  have hcp : coercedPairs
        ((List.range (m' + 1)).map (fun i =>
          Value.dt (Freq.label f (kmin + i)) :: meansOf names.length (B i))) 0
      = (List.range (m' + 1)).map (fun i =>
          (Freq.label f (kmin + i),
           Value.dt (Freq.label f (kmin + i)) :: meansOf names.length (B i))) := by
    rw [coercedPairs, List.filterMap_map]
    apply filterMap_all_some
    intro i _
    rfl
  have hmp : maskedPairs
        ((List.range (m' + 1)).map (fun i =>
          Value.dt (Freq.label f (kmin + i)) :: meansOf names.length (B i))) 0 lo' hi'
      = (List.range (m' + 1)).map (fun i =>
          (Freq.label f (kmin + i),
           Value.dt (Freq.label f (kmin + i)) :: meansOf names.length (B i))) := by
    rw [maskedPairs, hcp]
    apply List.filter_eq_self.mpr
    intro p hp
    obtain ⟨i, hi', rfl⟩ := List.mem_map.mp hp
    obtain ⟨h1, h2⟩ := hcov i (List.mem_range.mp hi')
    simp [h1, h2]
  have hnum : numericIdx
        ⟨tsCol :: names,
          (List.range (m' + 1)).map (fun i =>
            Value.dt (Freq.label f (kmin + i)) :: meansOf names.length (B i))⟩ 0
      = List.range' 1 names.length := by
    rw [numericIdx]
    show (List.range (tsCol :: names).length).filter _ = _
    rw [List.length_cons, range_succ_left names.length]
    rw [List.filter_cons_of_neg (by simp)]
    apply List.filter_eq_self.mpr
    intro c hc
    obtain ⟨hc1, _⟩ := List.mem_range'_1.mp hc
    have hcne : (c != 0) = true := by
      simp only [bne_iff_ne, ne_eq]
      omega
    rw [hcne, Bool.true_and]
    rw [isNumericCol, List.all_eq_true]
    intro row hrow
    obtain ⟨i, _, rfl⟩ := List.mem_map.mp hrow
    obtain ⟨k, rfl⟩ : ∃ k, c = k + 1 := ⟨c - 1, by omega⟩
    show numericCell (cellAt (Value.dt _ :: meansOf names.length (B i)) (k + 1)) = true
    rw [cellAt, List.getD_cons_succ]
    exact numericCell_meansOf names.length (B i) k
  have hhdr : (List.range' 1 names.length).map (fun c => (tsCol :: names).getD c "")
      = names := map_getD_cons_range' tsCol names ""
  have hkp : keyedPts f (List.range' 1 names.length)
        ((List.range (m' + 1)).map (fun i =>
          (Freq.label f (kmin + i),
           Value.dt (Freq.label f (kmin + i)) :: meansOf names.length (B i))))
      = (List.range (m' + 1)).map (fun i => (kmin + i, meansOf names.length (B i))) := by
    rw [keyedPts, List.map_map]
    apply List.map_congr_left
    intro i _
    simp only [Function.comp_apply]
    have hsnd : (List.range' 1 names.length).map
          (fun c => cellAt (Value.dt (Freq.label f (kmin + i))
            :: meansOf names.length (B i)) c)
        = meansOf names.length (B i) := by
      have hmg := map_getD_cons_range' (Value.dt (Freq.label f (kmin + i)))
        (meansOf names.length (B i)) Value.null
      rw [meansOf_length] at hmg
      simpa [cellAt] using hmg
    rw [key_label, hsnd]
  have hG2 : ∀ i, ((fun i => (kmin + i, meansOf names.length (B i))) i).1 = kmin + i :=
    fun i => rfl
  have hkmin2 := kminOf_map_range (fun i => (kmin + i, meansOf names.length (B i))) kmin m' hG2
  have hkmax2 := kmaxOf_map_range (fun i => (kmin + i, meansOf names.length (B i))) kmin m' hG2
  simp only [filter_data, hcol, ptsOf]
  rw [hnum, hmp, hkp, hhdr, List.length_range']
  rw [resampleRows, if_neg (by simp [List.isEmpty_iff])]
  rw [hkmin2, hkmax2]
  have hspan : kmin + m' + 1 - kmin = m' + 1 := by omega
  rw [hspan]
  congr 1
  apply List.map_congr_left
  intro i hi'
  have him : i < m' + 1 := List.mem_range.mp hi'
  have hfilter : ((List.range (m' + 1)).map
        (fun i' => (kmin + i', meansOf names.length (B i')))).filter
        (fun p => p.1 == kmin + i)
      = [(kmin + i, meansOf names.length (B i))] := by
    rw [List.filter_map]
    have hcong : (List.range (m' + 1)).filter
          ((fun p => p.1 == kmin + i) ∘ (fun i' => (kmin + i', meansOf names.length (B i'))))
        = (List.range (m' + 1)).filter (fun i' => i' == i) := by
      apply List.filter_congr
      intro i' _
      simp only [Function.comp_apply]
      by_cases h' : i' = i
      · subst h'; simp
      · have hne' : kmin + i' ≠ kmin + i := by omega
        simp [h', hne']
    rw [hcong, filter_beq_range (m' + 1) i him]
    rfl
  rw [hfilter, meansOf_single]

/-- Claim C8: resampling is idempotent.  A table produced by
`filter_data` with a bucket size — which by construction has exactly one
row per bucket of the occupied span, keyed by the bucket labels — is
returned unchanged when the filter-and-resample step is re-applied with
the same bucket size and bounds covering its full range. -/
theorem resample_idempotent (df : DataFrame) (tsCol : String) (j lo hi lo' hi' : Nat)
    (f : Freq)
    (hj : colIndex df.header tsCol = some j)
    (hne : maskedPairs df.rows j lo hi ≠ [])
    (hcov : ∀ r ∈ (filter_data df tsCol lo hi (some f)).rows,
        (coerceCell (cellAt r 0)).all
          (fun t => decide (lo' ≤ t) && decide (t ≤ hi')) = true) :
    filter_data (filter_data df tsCol lo hi (some f)) tsCol lo' hi' (some f)
      = filter_data df tsCol lo hi (some f) := by
  have hr1 := filter_some_eq df tsCol j lo hi f hj hne
  rw [hr1] at hcov
  have hm : 1 ≤ kmaxOf (ptsOf df j lo hi f) + 1 - kminOf (ptsOf df j lo hi f) := by
    have := kminOf_le_kmaxOf (ptsOf df j lo hi f) (ptsOf_ne df j lo hi f hne)
    omega
  obtain ⟨m', hm'⟩ : ∃ m'',
      kmaxOf (ptsOf df j lo hi f) + 1 - kminOf (ptsOf df j lo hi f) = m'' + 1 :=
    ⟨kmaxOf (ptsOf df j lo hi f) - kminOf (ptsOf df j lo hi f), by omega⟩
  have hcov' : ∀ i, i < m' + 1 →
      lo' ≤ Freq.label f (kminOf (ptsOf df j lo hi f) + i)
      ∧ Freq.label f (kminOf (ptsOf df j lo hi f) + i) ≤ hi' := by
    intro i him
    have hrow := hcov
      (Value.dt (Freq.label f (kminOf (ptsOf df j lo hi f) + i))
        :: meansOf (numericIdx df j).length
             ((ptsOf df j lo hi f).filter
               (fun p => p.1 == kminOf (ptsOf df j lo hi f) + i)))
      (by
        apply List.mem_map_of_mem
        apply List.mem_range.mpr
        omega)
    rw [cellAt, List.getD_cons_zero] at hrow
    simp only [coerceCell, Option.all, Bool.and_eq_true, decide_eq_true_eq] at hrow
    exact hrow
  rw [hr1]
  have hlen : (numericIdx df j).length
      = ((numericIdx df j).map (fun c => df.header.getD c "")).length :=
    (List.length_map _ _).symm
  rw [hlen, hm']
  exact refilter_canonical tsCol ((numericIdx df j).map (fun c => df.header.getD c "")) f
    (kminOf (ptsOf df j lo hi f)) m'
    (fun i => (ptsOf df j lo hi f).filter
      (fun p => p.1 == kminOf (ptsOf df j lo hi f) + i))
    lo' hi' hcov'

/-- Witness for C8: re-resampling the hour-resampled two-row frame with
the same bucket size and covering bounds returns it unchanged. -/
theorem resample_idempotent_witness :
    filter_data (filter_data h2Df "ts" 0 60 (some Freq.hour)) "ts" 0 60 (some Freq.hour)
      = filter_data h2Df "ts" 0 60 (some Freq.hour) :=
  resample_idempotent h2Df "ts" 0 0 60 0 60 Freq.hour (by decide) (by decide) (by decide)
